import Mathlib

/-
Verification of the psychrometric state-resolution and process-modeling
engine (backend/app/engine): the ADP/BF resolver, the cooling and
dehumidification solver, the mixing solver, the sensible solver, the
(Tdb, h) state resolution path, the SHR slope and ESHR computations, and
the input echo of resolve_state_point.

Modelling conventions.  All physical quantities are rational numbers.
The external psychrolib property library is an oracle: functions with a
documented closed form (moist-air enthalpy and its inversion, whose
formulas appear verbatim in state_resolver.py) are embedded as those
formulas; functions without one (GetSatHumRatio) are passed in as
function parameters.  The scipy brentq root finder is likewise passed in
as a parameter; theorems that depend on it assume exactly its contract
on the bracket actually used (result inside the bracket, objective zero
there).  Root-finding in the source is bounded-iteration; every
embedded solver here is a total computable function.
-/

namespace Psychro

/-- Unit system selector, from app/config.py. -/
inductive UnitSystem
  | IP
  | SI
deriving DecidableEq

/-- Chart minimum dry-bulb from CHART_RANGES in app/config.py
(20 degF for IP, -10 degC for SI). -/
def chartTdbMin : UnitSystem → ℚ
  | .IP => 20
  | .SI => -10

/-- Dry-air specific heat in the psychrolib moist-air enthalpy formula
(0.240 BTU per lb degF for IP, 1.006 kJ per kg K for SI), as documented in
state_resolver.py lines 116-119. -/
def enthalpyCp : UnitSystem → ℚ
  | .IP => 240/1000
  | .SI => 1006/1000

/-- Latent constant in the psychrolib moist-air enthalpy formula
(1061 BTU per lb for IP, 2501 kJ per kg for SI). -/
def enthalpyHfg : UnitSystem → ℚ
  | .IP => 1061
  | .SI => 2501

/-- Vapor specific heat in the psychrolib moist-air enthalpy formula
(0.444 for IP, 1.86 for SI). -/
def enthalpyCpv : UnitSystem → ℚ
  | .IP => 444/1000
  | .SI => 186/100

/-- psychrolib GetMoistAirEnthalpy: h = cp * Tdb + W * (hfg + cpv * Tdb),
the documented closed form used throughout the engine. -/
def GetMoistAirEnthalpy (u : UnitSystem) (Tdb W : ℚ) : ℚ :=
  enthalpyCp u * Tdb + W * (enthalpyHfg u + enthalpyCpv u * Tdb)

/-- psychrolib GetTDryBulbFromEnthalpyAndHumRatio: the direct algebraic
inversion of the moist-air enthalpy formula at fixed humidity ratio,
Tdb = (h - hfg * W) / (cp + cpv * W).  Used by the mixing solver
(mixing.py line 113). -/
def GetTDryBulbFromEnthalpyAndHumRatio (u : UnitSystem) (h W : ℚ) : ℚ :=
  (h - enthalpyHfg u * W) / (enthalpyCp u + enthalpyCpv u * W)

/-- SHR slope specific heat constants _CP_IP / _CP_SI from shr.py. -/
def shrCp : UnitSystem → ℚ
  | .IP => 244/1000
  | .SI => 1006/1000

/-- SHR slope latent heat constants _HFG_IP / _HFG_SI from shr.py. -/
def shrHfg : UnitSystem → ℚ
  | .IP => 1061
  | .SI => 2501

/-- Error cases of compute_shr_slope in shr.py (both are ValueError in the
source; the spec taxonomy calls them ValidationError). -/
inductive ShrSlopeError
  | nonpositive
  | aboveOne
deriving DecidableEq

/-- compute_shr_slope from shr.py lines 32-58: slope dW/dTdb for a given
SHR, cp * (1 - SHR) / (hfg * SHR), with 0 for SHR = 1 and errors outside
(0, 1]. -/
def compute_shr_slope (shr : ℚ) (u : UnitSystem) : Except ShrSlopeError ℚ :=
  if shr ≤ 0 then .error .nonpositive
  else if 1 < shr then .error .aboveOne
  else if shr = 1 then .ok 0
  else .ok (shrCp u * (1 - shr) / (shrHfg u * shr))

/-- Error cases of find_adp in processes/utils.py (both ValueError in the
source; the second is the NoIntersectionError of the spec taxonomy). -/
inductive AdpError
  | identicalTdb
  | noIntersection
deriving DecidableEq

/-- The objective closure built inside find_adp (processes/utils.py
lines 57-62): saturation humidity ratio minus the process-line humidity
ratio W = entering_W + slope * (Tdb - entering_Tdb), where
slope = (leaving_W - entering_W) / (leaving_Tdb - entering_Tdb). -/
def adpObjective (wsat : ℚ → ℚ → ℚ)
    (entering_Tdb entering_W leaving_Tdb leaving_W pressure Tdb : ℚ) : ℚ :=
  wsat Tdb pressure -
    (entering_W + (leaving_W - entering_W) / (leaving_Tdb - entering_Tdb) * (Tdb - entering_Tdb))

/-- find_adp from processes/utils.py lines 31-80 (duplicated as _find_adp
in cooling_dehum.py lines 44-93): intersection of the process line with
the saturation curve, root-found over [chart minimum, leaving_Tdb].
wsat is the psychrolib GetSatHumRatio oracle (Tdb, pressure); rootfind
is the scipy brentq oracle (objective, lo, hi). -/
def find_adp (wsat : ℚ → ℚ → ℚ) (rootfind : (ℚ → ℚ) → ℚ → ℚ → ℚ)
    (entering_Tdb entering_W leaving_Tdb leaving_W pressure : ℚ)
    (u : UnitSystem) : Except AdpError ℚ :=
  if |leaving_Tdb - entering_Tdb| < 1/10^10 then .error .identicalTdb
  else
    let objective := fun Tdb =>
      adpObjective wsat entering_Tdb entering_W leaving_Tdb leaving_W pressure Tdb
    let Tdb_min := chartTdbMin u
    let Tdb_max := leaving_Tdb
    if objective Tdb_min * objective Tdb_max > 0 then .error .noIntersection
    else .ok (rootfind objective Tdb_min Tdb_max)

/-- Leaving state of forward cooling-dehumidification
(cooling_dehum.py lines 177-178, identically coil.py lines 74-75):
linear interpolation from the ADP toward the entering state by BF. -/
def forwardLeaving (entering_Tdb entering_W adp_Tdb adp_W BF : ℚ) : ℚ × ℚ :=
  (adp_Tdb + BF * (entering_Tdb - adp_Tdb), adp_W + BF * (entering_W - adp_W))

/-- Error cases of the reverse bypass-factor computation
(cooling_dehum.py lines 274-286 and coil.py lines 160-172); both are
ValueError in the source, the second being the ValidationError of the
spec taxonomy. -/
inductive BfError
  | enteringEqualsAdp
  | outOfRange
deriving DecidableEq

/-- Reverse-mode bypass factor, from cooling_dehum.py lines 274-286 and
coil.py lines 160-172: BF = (leaving_Tdb - adp_Tdb) / (entering_Tdb - adp_Tdb),
rejected when outside [0, 1]. -/
def computeBypassFactor (entering_Tdb adp_Tdb leaving_Tdb : ℚ) : Except BfError ℚ :=
  let denom := entering_Tdb - adp_Tdb
  if |denom| < 1/10^10 then .error .enteringEqualsAdp
  else
    let BF := (leaving_Tdb - adp_Tdb) / denom
    if BF < 0 ∨ BF > 1 then .error .outOfRange
    else .ok BF

/-- Result of the forward coil / cooling-dehum core: leaving conditions
plus the presence of the no-dehumidification warning. -/
structure ForwardResult where
  leaving_Tdb : ℚ
  leaving_W : ℚ
  adpWarning : Bool
deriving DecidableEq

/-- Forward-mode core of _forward_coil (coil.py lines 47-97) and
_solve_forward (cooling_dehum.py lines 148-206): the supplied BF is
validated strictly inside (0, 1) before the ADP state is resolved;
resolveSat is the oracle resolving a saturated state (Tdb at 100 percent
RH) to its (Tdb, W). -/
def forwardCoil (resolveSat : ℚ → ℚ × ℚ)
    (entering_Tdb entering_W entering_Tdp adp_Tdb BF : ℚ) :
    Except BfError ForwardResult :=
  if BF ≤ 0 ∨ 1 ≤ BF then .error .outOfRange
  else
    let adp := resolveSat adp_Tdb
    let lv := forwardLeaving entering_Tdb entering_W adp.1 adp.2 BF
    .ok ⟨lv.1, lv.2, decide (entering_Tdp ≤ adp_Tdb)⟩

/-- Mixed state of the mixing solver (mixing.py lines 108-113):
mass-fraction-weighted W and h, then Tdb by the direct algebraic
inversion.  Returns (Tdb_mix, W_mix, h_mix). -/
def mixState (u : UnitSystem) (Tdb1 W1 Tdb2 W2 f : ℚ) : ℚ × ℚ × ℚ :=
  let h1 := GetMoistAirEnthalpy u Tdb1 W1
  let h2 := GetMoistAirEnthalpy u Tdb2 W2
  let W_mix := f * W1 + (1 - f) * W2
  let h_mix := f * h1 + (1 - f) * h2
  (GetTDryBulbFromEnthalpyAndHumRatio u h_mix W_mix, W_mix, h_mix)

/-- Error case of _resolve_tdb_h in state_resolver.py (ValueError in the
source; the RangeError of the spec taxonomy). -/
inductive TdbHError
  | outOfRange
deriving DecidableEq

/-- _resolve_tdb_h from state_resolver.py lines 109-144: humidity ratio
from (Tdb, target enthalpy) by root-finding W over [0, W_sat(Tdb)],
rejecting targets outside [h(Tdb, 0), h(Tdb, W_sat)]. -/
def resolve_tdb_h (wsat : ℚ → ℚ → ℚ) (rootfind : (ℚ → ℚ) → ℚ → ℚ → ℚ)
    (u : UnitSystem) (Tdb h_target pressure : ℚ) : Except TdbHError ℚ :=
  let W_sat := wsat Tdb pressure
  let h_at_min := GetMoistAirEnthalpy u Tdb 0
  let h_at_max := GetMoistAirEnthalpy u Tdb W_sat
  if h_target < h_at_min ∨ h_target > h_at_max then .error .outOfRange
  else .ok (rootfind (fun W => GetMoistAirEnthalpy u Tdb W - h_target) 0 W_sat)

/-- Round a rational to n decimal places, modelling the round(x, n) calls
of _calc_all_from_tdb_w in state_resolver.py.  (Python rounds half to
even; the theorems below use only values where the tie-breaking rule is
immaterial, via idempotence on already-rounded values.) -/
def roundTo (n : ℕ) (q : ℚ) : ℚ := (round (q * 10 ^ n) : ℚ) / 10 ^ n

/-- Input modes of the sensible solver (sensible.py lines 59-95), each
carrying the parameters the source requires for that mode. -/
inductive SensibleMode
  | targetTdb (Tdb : ℚ)
  | deltaT (dT : ℚ)
  | heatAirflow (Q airflow : ℚ)

/-- Error case of the sensible solver (ValueError in the source). -/
inductive SensibleError
  | nonpositiveAirflow
deriving DecidableEq

/-- Result of the sensible solver: end dry-bulb, end humidity ratio (as
echoed by the (Tdb, W) resolution of the end state, which rounds W to 7
decimals), and the presence of the below-dew-point warning. -/
structure SensibleResult where
  end_Tdb : ℚ
  end_W : ℚ
  dewPointWarning : Bool
deriving DecidableEq

/-- Assemble the sensible result for a computed end dry-bulb: warning when
end_Tdb < start.Tdp (sensible.py lines 107-112), end state resolved at
(end_Tdb, start_W) so its W is start_W rounded to 7 decimals
(sensible.py lines 115-121 with state_resolver rounding). -/
def sensibleFinish (start_W start_Tdp end_Tdb : ℚ) : SensibleResult :=
  ⟨end_Tdb, roundTo 7 start_W, decide (end_Tdb < start_Tdp)⟩

/-- SensibleSolver.solve from sensible.py lines 38-159, after resolution
of the start state: end dry-bulb per mode (explicit target, explicit
delta, or Q over density-corrected C times airflow), end state at the
same humidity ratio, warning instead of error when the end dry-bulb is
below the entering dew point.  v is the start-state specific volume from
the psychrolib GetMoistAirVolume oracle. -/
def sensibleSolve (u : UnitSystem) (start_Tdb start_W start_Tdp v : ℚ)
    (mode : SensibleMode) : Except SensibleError SensibleResult :=
  match mode with
  | .targetTdb t => .ok (sensibleFinish start_W start_Tdp t)
  | .deltaT d => .ok (sensibleFinish start_W start_Tdp (start_Tdb + d))
  | .heatAirflow Q airflow =>
    if airflow ≤ 0 then .error .nonpositiveAirflow
    else
      let rho := 1 / v
      let dT := match u with
        | .IP => Q / ((60 * rho * (244/1000)) * airflow)
        | .SI => Q / (rho * 1006 * airflow)
      .ok (sensibleFinish start_W start_Tdp (start_Tdb + dT))

/-- Error case of the ESHR branch of calculate_gshr (ValueError in the
source when the supplied bypass factor is outside (0, 1)). -/
inductive EshrError
  | bfOutOfRange
deriving DecidableEq

/-- Result of the ESHR branch: the effective SHR value and the presence
of the out-of-range warning. -/
structure EshrResult where
  eshr : ℚ
  rangeWarning : Bool
deriving DecidableEq

/-- ESHR branch of calculate_gshr, shr.py lines 347-365:
ESHR = 1 - (1 - GSHR) / (1 - BF); when the value falls outside [0, 1] a
warning is recorded and the value is clamped (to max(0.01, min(eshr, 1)))
on a still-successful result.  The final 4-decimal display rounding of
the source is omitted as presentation-only. -/
def eshrFromGshr (gshr bf : ℚ) : Except EshrError EshrResult :=
  if bf ≤ 0 ∨ 1 ≤ bf then .error .bfOutOfRange
  else
    let e := 1 - (1 - gshr) / (1 - bf)
    if e < 0 ∨ e > 1 then .ok ⟨max (1/100) (min e 1), true⟩
    else .ok ⟨e, false⟩

/-- SUPPORTED_INPUT_PAIRS from app/config.py, which are exactly the keys
of the _RESOLVERS dispatch table in state_resolver.py. -/
def SUPPORTED_INPUT_PAIRS : List (String × String) :=
  [("Tdb", "RH"), ("Tdb", "Twb"), ("Tdb", "Tdp"), ("Tdb", "W"), ("Tdb", "h"),
   ("Twb", "RH"), ("Tdp", "RH")]

/-- Error case of resolve_state_point dispatch (ValueError in the source;
the UnsupportedInputError of the spec taxonomy). -/
inductive ResolveError
  | unsupportedPair
deriving DecidableEq

/-- The fields of StatePointOutput relevant to the input echo: the echoed
pair, the echoed values, and the resolved properties (abstract). -/
structure StatePointOutput (α : Type) where
  input_pair : String × String
  input_values : ℚ × ℚ
  props : α
deriving DecidableEq

/-- resolve_state_point from state_resolver.py lines 234-282: dispatch on
the input pair, swapping the values into canonical order when the pair is
supplied reversed; the output echoes the original input_pair argument and
the possibly swapped values variable.  resolvers stands for the
_RESOLVERS dispatch table (each resolver applied positionally to the
values in canonical order). -/
def resolve_state_point {α : Type} (resolvers : String × String → ℚ → ℚ → α)
    (input_pair : String × String) (values : ℚ × ℚ) :
    Except ResolveError (StatePointOutput α) :=
  if input_pair ∈ SUPPORTED_INPUT_PAIRS then
    .ok ⟨input_pair, values, resolvers input_pair values.1 values.2⟩
  else if (input_pair.2, input_pair.1) ∈ SUPPORTED_INPUT_PAIRS then
    .ok ⟨input_pair, (values.2, values.1),
      resolvers (input_pair.2, input_pair.1) values.2 values.1⟩
  else .error .unsupportedPair

/-- The SHR slope specific heat constant is positive in both unit systems. -/
theorem shrCp_pos (u : UnitSystem) : 0 < shrCp u := by
  cases u <;> norm_num [shrCp]

/-- The SHR slope latent heat constant is positive in both unit systems. -/
theorem shrHfg_pos (u : UnitSystem) : 0 < shrHfg u := by
  cases u <;> norm_num [shrHfg]

/-- The enthalpy-formula dry-air specific heat is positive in both unit
systems. -/
theorem enthalpyCp_pos (u : UnitSystem) : 0 < enthalpyCp u := by
  cases u <;> norm_num [enthalpyCp]

/-- The enthalpy-formula vapor specific heat is positive in both unit
systems. -/
theorem enthalpyCpv_pos (u : UnitSystem) : 0 < enthalpyCpv u := by
  cases u <;> norm_num [enthalpyCpv]

/-- In both unit systems the vapor specific heat is at most twice the
dry-air specific heat (0.444 vs 0.480 in IP, 1.86 vs 2.012 in SI); this
is what keeps the mixing dry-bulb lever deviation below one percent for
humidity-ratio differences up to 0.02. -/
theorem enthalpyCpv_le_two_cp (u : UnitSystem) :
    enthalpyCpv u ≤ 2 * enthalpyCp u := by
  cases u <;> norm_num [enthalpyCp, enthalpyCpv]

/-- C8: The SHR slope function returns cp * (1 - SHR) / (hfg * SHR) for
SHR in (0, 1), returns exactly 0 for SHR = 1, is strictly decreasing on
(0, 1] (SHR_a < SHR_b implies slope(SHR_a) > slope(SHR_b)), and rejects
inputs at or below 0 or above 1 with an error. -/
theorem shr_slope_formula_monotone (u : UnitSystem) :
    (∀ s : ℚ, 0 < s → s < 1 →
      compute_shr_slope s u = .ok (shrCp u * (1 - s) / (shrHfg u * s))) ∧
    compute_shr_slope 1 u = .ok 0 ∧
    (∀ s : ℚ, s ≤ 0 ∨ 1 < s → ∃ e, compute_shr_slope s u = .error e) ∧
    (∀ sa sb va vb : ℚ, 0 < sa → sa < sb → sb ≤ 1 →
      compute_shr_slope sa u = .ok va → compute_shr_slope sb u = .ok vb →
      vb < va) := by
  have hfml : ∀ s : ℚ, 0 < s → s < 1 →
      compute_shr_slope s u = .ok (shrCp u * (1 - s) / (shrHfg u * s)) := by
    intro s h0 h1
    unfold compute_shr_slope
    rw [if_neg (by linarith), if_neg (by linarith), if_neg (ne_of_lt h1)]
  have hone : compute_shr_slope 1 u = .ok 0 := by
    norm_num [compute_shr_slope]
  refine ⟨hfml, hone, ?_, ?_⟩
  · intro s hs
    rcases hs with hle | hgt
    · exact ⟨.nonpositive, by unfold compute_shr_slope; rw [if_pos hle]⟩
    · refine ⟨.aboveOne, ?_⟩
      unfold compute_shr_slope
      rw [if_neg (by linarith), if_pos hgt]
  · intro sa sb va vb ha hab hb1 hva hvb
    have hcp := shrCp_pos u
    have hhfg := shrHfg_pos u
    have hsa1 : sa < 1 := lt_of_lt_of_le hab hb1
    have hva2 : va = shrCp u * (1 - sa) / (shrHfg u * sa) := by
      rw [hfml sa ha hsa1] at hva
      exact (Except.ok.injEq _ _).mp hva.symm
    have hvapos : 0 < va := by
      rw [hva2]
      exact div_pos (mul_pos hcp (by linarith)) (mul_pos hhfg ha)
    rcases eq_or_lt_of_le hb1 with hbeq | hblt
    · rw [hbeq, hone] at hvb
      have : vb = 0 := (Except.ok.injEq _ _).mp hvb.symm
      rw [this]
      exact hvapos
    · have hvb2 : vb = shrCp u * (1 - sb) / (shrHfg u * sb) := by
        rw [hfml sb (lt_trans ha hab) hblt] at hvb
        exact (Except.ok.injEq _ _).mp hvb.symm
      rw [hva2, hvb2]
      rw [div_lt_div_iff₀ (mul_pos hhfg (lt_trans ha hab)) (mul_pos hhfg ha)]
      nlinarith [mul_pos hcp hhfg]

/-- Witness for C8: concrete evaluations of the SHR slope at 1/4 and 1/2
in IP units, the rejection of a nonpositive SHR, and the strict decrease
between the two slopes. -/
theorem shr_slope_formula_monotone_witness :
    compute_shr_slope (1/4) .IP = .ok (183/265250) ∧
    compute_shr_slope (1/2) .IP = .ok (61/265250) ∧
    compute_shr_slope (-1) .IP = .error .nonpositive ∧
    (61/265250 : ℚ) < 183/265250 := by
  obtain ⟨h1, _, _, h4⟩ := shr_slope_formula_monotone .IP
  have ha := h1 (1/4) (by norm_num) (by norm_num)
  have hb := h1 (1/2) (by norm_num) (by norm_num)
  norm_num [shrCp, shrHfg] at ha hb
  have hm := h4 (1/4) (1/2) (183/265250) (61/265250)
    (by norm_num) (by norm_num) (by norm_num) ha hb
  exact ⟨ha, hb, by norm_num [compute_shr_slope], hm⟩

/-- C9: When a bypass factor strictly inside (0, 1) is supplied to the
GSHR calculation, the effective SHR is computed as
ESHR = 1 - (1 - GSHR) / (1 - BF); when that value lies in [0, 1] it is
returned as is with no warning, and whenever it falls outside [0, 1] the
result is still successful, the returned value is the clamp
max(0.01, min(ESHR, 1)) — which lies in [0, 1] — and the out-of-range
warning is attached. -/
theorem eshr_clamp_with_warning (gshr bf : ℚ) (h0 : 0 < bf) (h1 : bf < 1) :
    ∃ r : EshrResult, eshrFromGshr gshr bf = .ok r ∧
      (0 ≤ 1 - (1 - gshr) / (1 - bf) → 1 - (1 - gshr) / (1 - bf) ≤ 1 →
        r.eshr = 1 - (1 - gshr) / (1 - bf) ∧ r.rangeWarning = false) ∧
      ((1 - (1 - gshr) / (1 - bf) < 0 ∨ 1 < 1 - (1 - gshr) / (1 - bf)) →
        r.eshr = max (1/100) (min (1 - (1 - gshr) / (1 - bf)) 1) ∧
        0 ≤ r.eshr ∧ r.eshr ≤ 1 ∧ r.rangeWarning = true) := by
  have hbf : ¬(bf ≤ 0 ∨ 1 ≤ bf) := by push_neg; exact ⟨h0, h1⟩
  unfold eshrFromGshr
  rw [if_neg hbf]
  by_cases hout : 1 - (1 - gshr) / (1 - bf) < 0 ∨ 1 - (1 - gshr) / (1 - bf) > 1
  · rw [if_pos hout]
    refine ⟨_, rfl, ?_, ?_⟩
    · intro hge hle
      rcases hout with h | h
      · exact absurd hge (not_le.mpr h)
      · exact absurd hle (not_le.mpr h)
    · intro _
      refine ⟨rfl, ?_, ?_, rfl⟩
      · exact le_trans (by norm_num) (le_max_left _ _)
      · exact max_le (by norm_num) (min_le_right _ _)
  · rw [if_neg hout]
    push_neg at hout
    refine ⟨_, rfl, fun _ _ => ⟨rfl, rfl⟩, ?_⟩
    intro h
    rcases h with h | h
    · exact absurd h (not_lt.mpr hout.1)
    · exact absurd h (not_lt.mpr hout.2)

/-- Witness for C9: GSHR = -1 with BF = 1/2 yields ESHR = -3, outside
[0, 1]; the result is successful, clamped to 0.01 and carries the
warning. -/
theorem eshr_clamp_with_warning_witness :
    ∃ r : EshrResult, eshrFromGshr (-1) (1/2) = .ok r ∧
      r.eshr = 1/100 ∧ 0 ≤ r.eshr ∧ r.eshr ≤ 1 ∧ r.rangeWarning = true := by
  obtain ⟨r, hr, _, hout⟩ := eshr_clamp_with_warning (-1) (1/2) (by norm_num) (by norm_num)
  obtain ⟨hclamp, hb0, hb1, hw⟩ := hout (by norm_num)
  refine ⟨r, hr, ?_, hb0, hb1, hw⟩
  rw [hclamp]
  norm_num

/-- C4: Reverse-mode bypass-factor computation returns
BF = (leaving_Tdb - adp_Tdb) / (entering_Tdb - adp_Tdb) exactly when that
ratio lies in [0, 1] and raises the validation error whenever it falls
outside [0, 1]; in forward mode a supplied bypass factor at or outside
the bounds of (0, 1) is rejected with an error whose value is
independent of the state-resolution oracle (no state is computed), while
a bypass factor strictly inside (0, 1) is accepted. -/
theorem bypass_factor_validation :
    (∀ e a l : ℚ, 1/10^10 ≤ |e - a| →
      (computeBypassFactor e a l = .ok ((l - a) / (e - a)) ↔
        0 ≤ (l - a) / (e - a) ∧ (l - a) / (e - a) ≤ 1) ∧
      (computeBypassFactor e a l = .error .outOfRange ↔
        ((l - a) / (e - a) < 0 ∨ 1 < (l - a) / (e - a)))) ∧
    (∀ (resolveSat : ℚ → ℚ × ℚ) (e w tdp a BF : ℚ), BF ≤ 0 ∨ 1 ≤ BF →
      forwardCoil resolveSat e w tdp a BF = .error .outOfRange) ∧
    (∀ (resolveSat : ℚ → ℚ × ℚ) (e w tdp a BF : ℚ), 0 < BF → BF < 1 →
      ∃ r, forwardCoil resolveSat e w tdp a BF = .ok r) := by
  refine ⟨?_, ?_, ?_⟩
  · intro e a l hd
    have hne : ¬(|e - a| < 1/10^10) := not_lt.mpr hd
    unfold computeBypassFactor
    rw [if_neg hne]
    by_cases hout : (l - a) / (e - a) < 0 ∨ (l - a) / (e - a) > 1
    · rw [if_pos hout]
      constructor
      · constructor
        · intro h
          exact absurd h (by simp)
        · intro ⟨hge, hle⟩
          rcases hout with h | h
          · exact absurd hge (not_le.mpr h)
          · exact absurd hle (not_le.mpr h)
      · exact ⟨fun _ => hout, fun _ => rfl⟩
    · rw [if_neg hout]
      push_neg at hout
      constructor
      · exact ⟨fun _ => ⟨hout.1, hout.2⟩, fun _ => rfl⟩
      · constructor
        · intro h
          exact absurd h (by simp)
        · intro h
          rcases h with h | h
          · exact absurd h (not_lt.mpr hout.1)
          · exact absurd h (not_lt.mpr hout.2)
  · intro resolveSat e w tdp a BF h
    unfold forwardCoil
    rw [if_pos h]
  · intro resolveSat e w tdp a BF h0 h1
    have hbf : ¬(BF ≤ 0 ∨ 1 ≤ BF) := by push_neg; exact ⟨h0, h1⟩
    unfold forwardCoil
    rw [if_neg hbf]
    exact ⟨_, rfl⟩

/-- Witness for C4: with entering 80, ADP 50, leaving 65 the reverse BF is
exactly 1/2 and accepted; with leaving 95 the ratio is 3/2 and rejected;
a forward BF of 2 is rejected for any oracle and a forward BF of 1/2 is
accepted. -/
theorem bypass_factor_validation_witness :
    computeBypassFactor 80 50 65 = .ok (1/2) ∧
    computeBypassFactor 80 50 95 = .error .outOfRange ∧
    forwardCoil (fun t => (t, t/100)) 80 (9/10) 55 50 2 = .error .outOfRange ∧
    (∃ r, forwardCoil (fun t => (t, t/100)) 80 (9/10) 55 50 (1/2) = .ok r) := by
  obtain ⟨hrev, hfwd_err, hfwd_ok⟩ := bypass_factor_validation
  have h1 := ((hrev 80 50 65 (by norm_num)).1).mpr ⟨by norm_num, by norm_num⟩
  have h2 := ((hrev 80 50 95 (by norm_num)).2).mpr (by norm_num)
  refine ⟨?_, h2, hfwd_err _ 80 (9/10) 55 50 2 (Or.inr (by norm_num)), hfwd_ok _ 80 (9/10) 55 50 (1/2) (by norm_num) (by norm_num)⟩
  convert h1 using 2
  norm_num

/-- C2: Under the brentq contract on the bracket actually used (the
returned value lies in the bracket and zeroes the objective whenever the
endpoint values have opposite or zero signs), and for distinct entering
and leaving dry-bulbs, find_adp raises the no-intersection error exactly
when the objective has no sign change over
[chart minimum, leaving Tdb], and every successful result is a Tdb in
that interval at which the saturation humidity ratio equals the
process-line humidity ratio.  The embedded solver is a total function:
it performs no unbounded iteration. -/
theorem find_adp_bracket_and_error
    (wsat : ℚ → ℚ → ℚ) (rootfind : (ℚ → ℚ) → ℚ → ℚ → ℚ)
    (eTdb eW lTdb lW p : ℚ) (u : UnitSystem)
    (hdist : 1/10^10 ≤ |lTdb - eTdb|)
    (hrf : adpObjective wsat eTdb eW lTdb lW p (chartTdbMin u) *
        adpObjective wsat eTdb eW lTdb lW p lTdb ≤ 0 →
      rootfind (fun T => adpObjective wsat eTdb eW lTdb lW p T) (chartTdbMin u) lTdb ∈
        Set.Icc (chartTdbMin u) lTdb ∧
      adpObjective wsat eTdb eW lTdb lW p
        (rootfind (fun T => adpObjective wsat eTdb eW lTdb lW p T) (chartTdbMin u) lTdb) = 0) :
    (find_adp wsat rootfind eTdb eW lTdb lW p u = .error .noIntersection ↔
      ¬((adpObjective wsat eTdb eW lTdb lW p (chartTdbMin u) ≤ 0 ∧
          0 ≤ adpObjective wsat eTdb eW lTdb lW p lTdb) ∨
        (adpObjective wsat eTdb eW lTdb lW p lTdb ≤ 0 ∧
          0 ≤ adpObjective wsat eTdb eW lTdb lW p (chartTdbMin u)))) ∧
    (∀ T, find_adp wsat rootfind eTdb eW lTdb lW p u = .ok T →
      T ∈ Set.Icc (chartTdbMin u) lTdb ∧
      wsat T p = eW + (lW - eW) / (lTdb - eTdb) * (T - eTdb)) := by
  have hne : ¬(|lTdb - eTdb| < 1/10^10) := not_lt.mpr hdist
  have hsign : adpObjective wsat eTdb eW lTdb lW p (chartTdbMin u) *
      adpObjective wsat eTdb eW lTdb lW p lTdb > 0 ↔
      ¬((adpObjective wsat eTdb eW lTdb lW p (chartTdbMin u) ≤ 0 ∧
          0 ≤ adpObjective wsat eTdb eW lTdb lW p lTdb) ∨
        (adpObjective wsat eTdb eW lTdb lW p lTdb ≤ 0 ∧
          0 ≤ adpObjective wsat eTdb eW lTdb lW p (chartTdbMin u))) := by
    rw [gt_iff_lt, lt_iff_not_le, mul_nonpos_iff]
    tauto
  constructor
  · rw [← hsign]
    unfold find_adp
    rw [if_neg hne]
    by_cases hp : adpObjective wsat eTdb eW lTdb lW p (chartTdbMin u) *
        adpObjective wsat eTdb eW lTdb lW p lTdb > 0
    · simp only [if_pos hp]
      exact ⟨fun _ => hp, fun _ => trivial⟩
    · simp only [if_neg hp]
      exact ⟨fun h => absurd h (by simp), fun h => absurd h hp⟩
  · intro T hT
    unfold find_adp at hT
    rw [if_neg hne] at hT
    by_cases hp : adpObjective wsat eTdb eW lTdb lW p (chartTdbMin u) *
        adpObjective wsat eTdb eW lTdb lW p lTdb > 0
    · simp only [if_pos hp] at hT
      exact absurd hT (by simp)
    · simp only [if_neg hp] at hT
      obtain ⟨hmem, hzero⟩ := hrf (not_lt.mp hp)
      set r := rootfind (fun T => adpObjective wsat eTdb eW lTdb lW p T) (chartTdbMin u) lTdb
      have hTeq : T = r := ((Except.ok.injEq _ _).mp hT).symm
      rw [hTeq]
      refine ⟨hmem, ?_⟩
      unfold adpObjective at hzero
      linarith

/-- Witness for C2: a linear saturation oracle T/100, entering (80, 0.9),
leaving (65, 0.7) at standard pressure in IP units; the objective changes
sign over [20, 65], the constant root finder returning 50 satisfies the
brentq contract there, and find_adp returns 50, which is in the bracket
and lies on both curves. -/
theorem find_adp_bracket_and_error_witness :
    find_adp (fun T _ => T/100) (fun _ _ _ => 50) 80 (9/10) 65 (7/10) (14696/1000) .IP =
      .ok 50 ∧
    (50 : ℚ) ∈ Set.Icc (chartTdbMin .IP) 65 ∧
    (fun T (_ : ℚ) => T/100) 50 (14696/1000) =
      9/10 + (7/10 - 9/10) / (65 - 80) * ((50 : ℚ) - 80) := by
  obtain ⟨herr, hok⟩ := find_adp_bracket_and_error (fun T _ => T/100) (fun _ _ _ => 50)
    80 (9/10) 65 (7/10) (14696/1000) .IP
    (by norm_num)
    (fun _ => ⟨by norm_num [Set.mem_Icc, chartTdbMin], by norm_num [adpObjective]⟩)
  have hfind : find_adp (fun T _ => T/100) (fun _ _ _ => 50) 80 (9/10) 65 (7/10)
      (14696/1000) .IP = .ok 50 := by
    unfold find_adp
    rw [if_neg (by norm_num), if_neg (by norm_num [adpObjective, chartTdbMin])]
  obtain ⟨hmem, hcurve⟩ := hok 50 hfind
  exact ⟨hfind, hmem, hcurve⟩

/-- C3: When the process line has slope zero (leaving humidity ratio
equal to entering humidity ratio, distinct dry-bulbs) and the saturation
oracle is strictly monotone over the bracket, find_adp returns exactly
the temperature at which the saturation humidity ratio equals the
entering humidity ratio — the dew point of the entering state — provided
that temperature lies in the bracket. -/
theorem find_adp_zero_slope_dew_point
    (wsat : ℚ → ℚ → ℚ) (rootfind : (ℚ → ℚ) → ℚ → ℚ → ℚ)
    (eTdb eW lTdb p Tdp : ℚ) (u : UnitSystem)
    (hdist : 1/10^10 ≤ |lTdb - eTdb|)
    (hmono : StrictMonoOn (fun T => wsat T p) (Set.Icc (chartTdbMin u) lTdb))
    (hdpmem : Tdp ∈ Set.Icc (chartTdbMin u) lTdb)
    (hdp : wsat Tdp p = eW)
    (hrf : adpObjective wsat eTdb eW lTdb eW p (chartTdbMin u) *
        adpObjective wsat eTdb eW lTdb eW p lTdb ≤ 0 →
      rootfind (fun T => adpObjective wsat eTdb eW lTdb eW p T) (chartTdbMin u) lTdb ∈
        Set.Icc (chartTdbMin u) lTdb ∧
      adpObjective wsat eTdb eW lTdb eW p
        (rootfind (fun T => adpObjective wsat eTdb eW lTdb eW p T) (chartTdbMin u) lTdb) = 0) :
    find_adp wsat rootfind eTdb eW lTdb eW p u = .ok Tdp := by
  have hne : ¬(|lTdb - eTdb| < 1/10^10) := not_lt.mpr hdist
  have hobj : ∀ T : ℚ, adpObjective wsat eTdb eW lTdb eW p T = wsat T p - eW := by
    intro T
    unfold adpObjective
    rw [sub_self, zero_div, zero_mul]
    ring
  have hlo : chartTdbMin u ≤ Tdp := hdpmem.1
  have hhi : Tdp ≤ lTdb := hdpmem.2
  have hmemlo : chartTdbMin u ∈ Set.Icc (chartTdbMin u) lTdb :=
    ⟨le_refl _, le_trans hlo hhi⟩
  have hmemhi : lTdb ∈ Set.Icc (chartTdbMin u) lTdb :=
    ⟨le_trans hlo hhi, le_refl _⟩
  have hsmin : wsat (chartTdbMin u) p ≤ wsat Tdp p := by
    rcases eq_or_lt_of_le hlo with h | h
    · rw [h]
    · exact le_of_lt (hmono hmemlo hdpmem h)
  have hsmax : wsat Tdp p ≤ wsat lTdb p := by
    rcases eq_or_lt_of_le hhi with h | h
    · rw [h]
    · exact le_of_lt (hmono hdpmem hmemhi h)
  have hprod : adpObjective wsat eTdb eW lTdb eW p (chartTdbMin u) *
      adpObjective wsat eTdb eW lTdb eW p lTdb ≤ 0 := by
    rw [hobj, hobj]
    apply mul_nonpos_of_nonpos_of_nonneg
    · rw [sub_nonpos, ← hdp]
      exact hsmin
    · rw [sub_nonneg, ← hdp]
      exact hsmax
  obtain ⟨hmem, hzero⟩ := hrf hprod
  have hroot : wsat (rootfind (fun T => adpObjective wsat eTdb eW lTdb eW p T)
      (chartTdbMin u) lTdb) p = eW := by
    have := hzero
    rw [hobj] at this
    linarith [this]
  have heq : rootfind (fun T => adpObjective wsat eTdb eW lTdb eW p T)
      (chartTdbMin u) lTdb = Tdp := by
    apply hmono.injOn hmem hdpmem
    simp only
    rw [hroot, hdp]
  unfold find_adp
  rw [if_neg hne, if_neg (not_lt.mpr hprod), heq]

/-- Witness for C3: linear saturation oracle T/100, entering (80, 0.5),
leaving dry-bulb 60 at the same humidity ratio; the dew point is 50, the
constant root finder returning 50 satisfies the contract, and find_adp
returns exactly 50. -/
theorem find_adp_zero_slope_dew_point_witness :
    find_adp (fun T _ => T/100) (fun _ _ _ => 50) 80 (1/2) 60 (1/2) (14696/1000) .IP =
      .ok 50 := by
  apply find_adp_zero_slope_dew_point (fun T _ => T/100) (fun _ _ _ => 50)
    80 (1/2) 60 (14696/1000) 50 .IP
  · norm_num
  · intro a _ b _ hab
    simp only
    linarith
  · norm_num [Set.mem_Icc, chartTdbMin]
  · norm_num
  · intro _
    constructor
    · norm_num [Set.mem_Icc, chartTdbMin]
    · norm_num [adpObjective]

/-- C1 counterexample: an instance of the claim on which the code does
not recover the ADP at all.  With the increasing saturation oracle
T/10000, entering state (75 degF, W = 0.0025) whose dew point is 25
(the oracle at 25 equals the entering W), ADP dry-bulb 15 — below the
entering dew point, as the claim requires, but below the 20 degF chart
minimum — and BF = 1/2, the forward solve produces the leaving state
(45, 0.002), yet the reverse solve raises the no-intersection error:
the intersection sits below the bracket [20, 45], whose endpoint
objective values are both positive (the error branch is taken before
the root finder is ever consulted, so the constant root finder is
immaterial).  No ADP is recovered, refuting the claim as stated. -/
theorem adp_bf_inverse_counterexample :
    (1/20 : ℚ) < 1/2 ∧ (1/2 : ℚ) < 19/20 ∧
    (fun T (_ : ℚ) => T/10000) 25 (14696/1000) = 1/400 ∧
    (15 : ℚ) < 25 ∧
    ((45 : ℚ), (1/500 : ℚ)) =
      forwardLeaving 75 (1/400) 15 ((fun T (_ : ℚ) => T/10000) 15 (14696/1000)) (1/2) ∧
    find_adp (fun T _ => T/10000) (fun _ _ _ => 0) 75 (1/400) 45 (1/500)
      (14696/1000) .IP = .error .noIntersection := by
  refine ⟨by norm_num, by norm_num, by norm_num, by norm_num,
    by norm_num [forwardLeaving], ?_⟩
  unfold find_adp
  rw [if_neg (by norm_num), if_pos (by norm_num [adpObjective, chartTdbMin])]

/-- C1 amended: forward and reverse cooling-dehumidification are numeric
inverses on the part of the claimed domain the code accepts.  For an
entering state, an ADP dry-bulb below the entering dew point (its
saturation humidity below the entering humidity ratio) that is also at
or above the chart minimum, with the forward leaving dry-bulb clearing
the code's own 1e-10 identical-temperature guard
((1 - BF) * (eTdb - adpTdb) at least 1e-10), and a bypass factor in
(0.05, 0.95), the leaving state produced by the forward interpolation,
fed to the reverse solver (find_adp followed by the bypass-factor
ratio), recovers the original ADP dry-bulb within 0.5 degrees and the
original BF within 0.02 — in fact exactly, under the brentq contract,
the bracket sign change, and uniqueness of the process-line/saturation
intersection over the bracket.  (For an ADP below the chart minimum the
reverse solve errors instead: see the counterexample.) -/
theorem adp_bf_forward_reverse_inverse
    (wsat : ℚ → ℚ → ℚ) (rootfind : (ℚ → ℚ) → ℚ → ℚ → ℚ)
    (eTdb eW adpTdb p lTdb lW BF : ℚ) (u : UnitSystem)
    (hBFlo : 1/20 < BF) (hBFhi : BF < 19/20)
    (_hdp : wsat adpTdb p < eW)
    (_hmin : chartTdbMin u ≤ adpTdb)
    (htol : 1/10^10 ≤ (1 - BF) * (eTdb - adpTdb))
    (hfwd : (lTdb, lW) = forwardLeaving eTdb eW adpTdb (wsat adpTdb p) BF)
    (hsign : adpObjective wsat eTdb eW lTdb lW p (chartTdbMin u) *
        adpObjective wsat eTdb eW lTdb lW p lTdb ≤ 0)
    (huniq : ∀ T ∈ Set.Icc (chartTdbMin u) lTdb,
      adpObjective wsat eTdb eW lTdb lW p T = 0 → T = adpTdb)
    (hrf : adpObjective wsat eTdb eW lTdb lW p (chartTdbMin u) *
        adpObjective wsat eTdb eW lTdb lW p lTdb ≤ 0 →
      rootfind (fun T => adpObjective wsat eTdb eW lTdb lW p T) (chartTdbMin u) lTdb ∈
        Set.Icc (chartTdbMin u) lTdb ∧
      adpObjective wsat eTdb eW lTdb lW p
        (rootfind (fun T => adpObjective wsat eTdb eW lTdb lW p T) (chartTdbMin u) lTdb) = 0) :
    ∃ adp2 BF2,
      find_adp wsat rootfind eTdb eW lTdb lW p u = .ok adp2 ∧
      computeBypassFactor eTdb adp2 lTdb = .ok BF2 ∧
      |adp2 - adpTdb| ≤ 1/2 ∧ |BF2 - BF| ≤ 1/50 := by
  have h1BF : 0 < 1 - BF := by linarith
  have hprodpos : 0 < (1 - BF) * (eTdb - adpTdb) :=
    lt_of_lt_of_le (by norm_num) htol
  have hgap0 : 0 < eTdb - adpTdb := by nlinarith [hprodpos, h1BF]
  have hBFgap : 0 ≤ BF * (eTdb - adpTdb) :=
    mul_nonneg (by linarith) hgap0.le
  have hsplit : eTdb - adpTdb = (1 - BF) * (eTdb - adpTdb) + BF * (eTdb - adpTdb) := by
    ring
  have hgap10 : 1/10^10 ≤ eTdb - adpTdb := by linarith
  have hl : lTdb = adpTdb + BF * (eTdb - adpTdb) :=
    congrArg Prod.fst hfwd
  have hdiff : lTdb - eTdb = -((1 - BF) * (eTdb - adpTdb)) := by
    rw [hl]; ring
  have hneg : lTdb - eTdb ≤ -(1/10^10) := by
    rw [hdiff]
    linarith
  have habs : 1/10^10 ≤ |lTdb - eTdb| :=
    le_abs.mpr (Or.inr (by linarith))
  obtain ⟨hmem, hzero⟩ := hrf hsign
  set r := rootfind (fun T => adpObjective wsat eTdb eW lTdb lW p T) (chartTdbMin u) lTdb
  have hradp : r = adpTdb := huniq r hmem hzero
  have hngt : ¬(adpObjective wsat eTdb eW lTdb lW p (chartTdbMin u) *
      adpObjective wsat eTdb eW lTdb lW p lTdb > 0) := not_lt.mpr hsign
  have hfind : find_adp wsat rootfind eTdb eW lTdb lW p u = .ok adpTdb := by
    unfold find_adp
    rw [if_neg (not_lt.mpr habs), if_neg hngt]
    exact congrArg Except.ok hradp
  have hdne : eTdb - adpTdb ≠ 0 := by linarith
  have hratio : (lTdb - adpTdb) / (eTdb - adpTdb) = BF := by
    rw [hl]
    field_simp
  have hbf : computeBypassFactor eTdb adpTdb lTdb = .ok BF := by
    unfold computeBypassFactor
    rw [if_neg (not_lt.mpr (le_abs.mpr (Or.inl (by linarith)))), hratio,
      if_neg (by push_neg; constructor <;> linarith)]
  exact ⟨adpTdb, BF, hfind, hbf, by simp, by simp⟩

/-- Witness for C1 amended: linear saturation oracle T/100, entering
(80 degF, W = 0.6) with dew point 60, ADP dry-bulb 50 (saturation
humidity 0.5, below the entering humidity ratio and above the 20 degF
chart minimum), BF = 1/2.  The forward leaving state is (65, 0.55); the
reverse solve recovers ADP 50 and BF = 1/2 exactly. -/
theorem adp_bf_forward_reverse_inverse_witness :
    ∃ adp2 BF2,
      find_adp (fun T _ => T/100) (fun _ _ _ => 50) 80 (6/10) 65 (11/20)
        (14696/1000) .IP = .ok adp2 ∧
      computeBypassFactor 80 adp2 65 = .ok BF2 ∧
      |adp2 - 50| ≤ 1/2 ∧ |BF2 - 1/2| ≤ 1/50 := by
  apply adp_bf_forward_reverse_inverse (fun T _ => T/100) (fun _ _ _ => 50)
    80 (6/10) 50 (14696/1000) 65 (11/20) (1/2) .IP
  · norm_num
  · norm_num
  · norm_num
  · norm_num [chartTdbMin]
  · norm_num
  · norm_num [forwardLeaving]
  · norm_num [adpObjective, chartTdbMin]
  · intro T hT h
    norm_num [adpObjective] at h
    linarith
  · intro _
    constructor
    · norm_num [Set.mem_Icc, chartTdbMin]
    · norm_num [adpObjective]

/-- C6: Resolution from the (Tdb, h) pair fails with the range error
exactly when the target enthalpy lies outside the closed interval
[h(Tdb, 0), h(Tdb, W_sat(Tdb))]; for any target inside that interval it
succeeds (under the brentq contract on the bracket [0, W_sat(Tdb)]),
returning a humidity ratio in that bracket whose enthalpy equals the
target; and the enthalpy is strictly monotone in W, so the bracketed
root is well posed. -/
theorem resolve_tdb_h_range_and_success
    (wsat : ℚ → ℚ → ℚ) (rootfind : (ℚ → ℚ) → ℚ → ℚ → ℚ)
    (u : UnitSystem) (Tdb h_target p : ℚ)
    (hcoeff : 0 < enthalpyHfg u + enthalpyCpv u * Tdb)
    (hrf : (GetMoistAirEnthalpy u Tdb 0 - h_target) *
        (GetMoistAirEnthalpy u Tdb (wsat Tdb p) - h_target) ≤ 0 →
      rootfind (fun W => GetMoistAirEnthalpy u Tdb W - h_target) 0 (wsat Tdb p) ∈
        Set.Icc 0 (wsat Tdb p) ∧
      GetMoistAirEnthalpy u Tdb
        (rootfind (fun W => GetMoistAirEnthalpy u Tdb W - h_target) 0 (wsat Tdb p)) -
        h_target = 0) :
    (resolve_tdb_h wsat rootfind u Tdb h_target p = .error .outOfRange ↔
      (h_target < GetMoistAirEnthalpy u Tdb 0 ∨
        GetMoistAirEnthalpy u Tdb (wsat Tdb p) < h_target)) ∧
    (GetMoistAirEnthalpy u Tdb 0 ≤ h_target →
      h_target ≤ GetMoistAirEnthalpy u Tdb (wsat Tdb p) →
      ∃ W, resolve_tdb_h wsat rootfind u Tdb h_target p = .ok W ∧
        W ∈ Set.Icc 0 (wsat Tdb p) ∧ GetMoistAirEnthalpy u Tdb W = h_target) ∧
    StrictMono (fun W => GetMoistAirEnthalpy u Tdb W) := by
  refine ⟨?_, ?_, ?_⟩
  · unfold resolve_tdb_h
    by_cases hout : h_target < GetMoistAirEnthalpy u Tdb 0 ∨
        GetMoistAirEnthalpy u Tdb (wsat Tdb p) < h_target
    · rw [if_pos hout]
      exact ⟨fun _ => hout, fun _ => rfl⟩
    · rw [if_neg hout]
      exact ⟨fun h => absurd h (by simp), fun h => absurd h hout⟩
  · intro hlo hhi
    have hout : ¬(h_target < GetMoistAirEnthalpy u Tdb 0 ∨
        GetMoistAirEnthalpy u Tdb (wsat Tdb p) < h_target) := by
      push_neg
      exact ⟨hlo, hhi⟩
    have hprod : (GetMoistAirEnthalpy u Tdb 0 - h_target) *
        (GetMoistAirEnthalpy u Tdb (wsat Tdb p) - h_target) ≤ 0 :=
      mul_nonpos_of_nonpos_of_nonneg (by linarith) (by linarith)
    obtain ⟨hmem, hzero⟩ := hrf hprod
    refine ⟨_, ?_, hmem, by linarith⟩
    unfold resolve_tdb_h
    rw [if_neg hout]
  · intro a b hab
    simp only [GetMoistAirEnthalpy]
    nlinarith [mul_lt_mul_of_pos_right hab hcoeff]

/-- Witness for C6: in IP units at Tdb = 0 with saturation humidity 0.01,
the achievable enthalpy interval is [0, 10.61]; the target -1 is
rejected with the range error and the target 5.305 succeeds at
W = 0.005, whose enthalpy is exactly the target. -/
theorem resolve_tdb_h_range_and_success_witness :
    resolve_tdb_h (fun _ _ => 1/100) (fun _ _ _ => 1/200) .IP 0 (-1)
      (14696/1000) = .error .outOfRange ∧
    (∃ W, resolve_tdb_h (fun _ _ => 1/100) (fun _ _ _ => 1/200) .IP 0 (1061/200)
      (14696/1000) = .ok W ∧
      W ∈ Set.Icc 0 ((1:ℚ)/100) ∧ GetMoistAirEnthalpy .IP 0 W = 1061/200) := by
  obtain ⟨herr, _, _⟩ := resolve_tdb_h_range_and_success (fun _ _ => 1/100)
    (fun _ _ _ => 1/200) .IP 0 (-1) (14696/1000)
    (by norm_num [enthalpyHfg, enthalpyCpv])
    (fun hpd => absurd hpd
      (by norm_num [GetMoistAirEnthalpy, enthalpyCp, enthalpyHfg, enthalpyCpv]))
  obtain ⟨_, hok, _⟩ := resolve_tdb_h_range_and_success (fun _ _ => 1/100)
    (fun _ _ _ => 1/200) .IP 0 (1061/200) (14696/1000)
    (by norm_num [enthalpyHfg, enthalpyCpv])
    (fun _ => ⟨by norm_num [Set.mem_Icc],
      by norm_num [GetMoistAirEnthalpy, enthalpyCp, enthalpyHfg, enthalpyCpv]⟩)
  refine ⟨?_, ?_⟩
  · exact herr.mpr (Or.inl (by norm_num [GetMoistAirEnthalpy, enthalpyCp]))
  · exact hok (by norm_num [GetMoistAirEnthalpy, enthalpyCp])
      (by norm_num [GetMoistAirEnthalpy, enthalpyCp, enthalpyHfg, enthalpyCpv])

/-- C7: For every sensible solve, in each of the three input modes (with
positive airflow in the heat-and-airflow mode), the solver succeeds, the
end humidity ratio equals the start humidity ratio (the start value
being 7-decimal-rounded, as every resolved state is), and the
below-dew-point warning is attached exactly when the end dry-bulb is
below the entering dew point — a warning on a successful result, never
an error. -/
theorem sensible_preserves_w_and_warns
    (u : UnitSystem) (start_Tdb start_W start_Tdp v : ℚ) (mode : SensibleMode)
    (hW : roundTo 7 start_W = start_W)
    (hair : ∀ Q a : ℚ, mode = .heatAirflow Q a → 0 < a) :
    ∃ r : SensibleResult, sensibleSolve u start_Tdb start_W start_Tdp v mode = .ok r ∧
      r.end_W = start_W ∧ (r.dewPointWarning = true ↔ r.end_Tdb < start_Tdp) := by
  cases mode with
  | targetTdb t =>
    refine ⟨sensibleFinish start_W start_Tdp t, rfl, ?_, ?_⟩
    · simpa [sensibleFinish] using hW
    · simp [sensibleFinish]
  | deltaT d =>
    refine ⟨sensibleFinish start_W start_Tdp (start_Tdb + d), rfl, ?_, ?_⟩
    · simpa [sensibleFinish] using hW
    · simp [sensibleFinish]
  | heatAirflow Q a =>
    have ha : ¬(a ≤ 0) := not_le.mpr (hair Q a rfl)
    simp only [sensibleSolve]
    rw [if_neg ha]
    refine ⟨_, rfl, ?_, ?_⟩
    · simpa [sensibleFinish] using hW
    · simp [sensibleFinish]

/-- Witness for C7: IP heating by Q = 14640 BTU/hr at 100 CFM from
(55 degF, W = 0.009, dew point 45 degF) with specific volume 10; the
solve succeeds, the end humidity ratio is exactly the start humidity
ratio, and the warning tracks the dew-point comparison. -/
theorem sensible_preserves_w_and_warns_witness :
    ∃ r : SensibleResult,
      sensibleSolve .IP 55 (9/1000) 45 10 (.heatAirflow 14640 100) = .ok r ∧
      r.end_W = 9/1000 ∧ (r.dewPointWarning = true ↔ r.end_Tdb < 45) := by
  apply sensible_preserves_w_and_warns .IP 55 (9/1000) 45 10 (.heatAirflow 14640 100)
  · norm_num [roundTo, round_eq]
  · intro Q a h
    cases h
    norm_num

/-- C5 counterexample: mixing stream 1 = (120 degF, W = 0.001) with
stream 2 = (90 degF, W = 0.0305) at f = 1/2 in IP units gives a mixed
dry-bulb whose lever ratio deviates from f by more than one percent
(about 1.33 points): the dry-bulb recovered from (h_mix, W_mix) by the
closed-form inversion is the moist-specific-heat-weighted mean of the
stream dry-bulbs, not their f-weighted mean. -/
theorem mixing_tdb_lever_counterexample :
    1/100 <
      |((mixState .IP 120 (1/1000) 90 (61/2000) (1/2)).1 - 90) / (120 - 90) - 1/2| := by
  rw [lt_abs]
  right
  norm_num [mixState, GetMoistAirEnthalpy, GetTDryBulbFromEnthalpyAndHumRatio,
    enthalpyCp, enthalpyHfg, enthalpyCpv]

/-- C5 amended: for every mixing fraction f in [0, 1] and resolvable
streams with nonnegative humidity ratios and distinct dry-bulbs, the
mixed state satisfies the lever rule exactly for W and h, and the mixed
dry-bulb — obtained by the closed-form inversion from (h_mix, W_mix)
without iteration — has lever ratio within one percent of f provided
the two humidity ratios differ by at most 0.02 (mass-ratio units); the
counterexample shows the one-percent bound fails without that proviso. -/
theorem mixing_lever_rule_amended (u : UnitSystem) (T1 W1 T2 W2 f : ℚ)
    (hf0 : 0 ≤ f) (hf1 : f ≤ 1) (hW1 : 0 ≤ W1) (hW2 : 0 ≤ W2)
    (hT : T1 - T2 ≠ 0) (hdW : |W1 - W2| ≤ 1/50) :
    (mixState u T1 W1 T2 W2 f).2.1 = f * W1 + (1 - f) * W2 ∧
    (mixState u T1 W1 T2 W2 f).2.2 =
      f * GetMoistAirEnthalpy u T1 W1 + (1 - f) * GetMoistAirEnthalpy u T2 W2 ∧
    (mixState u T1 W1 T2 W2 f).2.1 - W2 = f * (W1 - W2) ∧
    (mixState u T1 W1 T2 W2 f).2.2 - GetMoistAirEnthalpy u T2 W2 =
      f * (GetMoistAirEnthalpy u T1 W1 - GetMoistAirEnthalpy u T2 W2) ∧
    |((mixState u T1 W1 T2 W2 f).1 - T2) / (T1 - T2) - f| ≤ 1/100 := by
  have hcp := enthalpyCp_pos u
  have hcpv := enthalpyCpv_pos u
  have hkey := enthalpyCpv_le_two_cp u
  have hfw1 : 0 ≤ f * W1 := mul_nonneg hf0 hW1
  have hfw2 : 0 ≤ (1 - f) * W2 := mul_nonneg (by linarith) hW2
  have hDpos : 0 < enthalpyCp u + enthalpyCpv u * (f * W1 + (1 - f) * W2) := by
    linarith [mul_nonneg hcpv.le (add_nonneg hfw1 hfw2)]
  refine ⟨rfl, rfl, ?_, ?_, ?_⟩
  · show f * W1 + (1 - f) * W2 - W2 = f * (W1 - W2)
    ring
  · show f * GetMoistAirEnthalpy u T1 W1 + (1 - f) * GetMoistAirEnthalpy u T2 W2 -
      GetMoistAirEnthalpy u T2 W2 =
      f * (GetMoistAirEnthalpy u T1 W1 - GetMoistAirEnthalpy u T2 W2)
    ring
  · have hratio : ((mixState u T1 W1 T2 W2 f).1 - T2) / (T1 - T2) - f =
        f * (1 - f) * (enthalpyCpv u * (W1 - W2)) /
          (enthalpyCp u + enthalpyCpv u * (f * W1 + (1 - f) * W2)) := by
      simp only [mixState, GetTDryBulbFromEnthalpyAndHumRatio, GetMoistAirEnthalpy]
      field_simp
      ring
    rw [hratio, abs_div, abs_of_pos hDpos, abs_mul, abs_mul, abs_mul,
      abs_of_nonneg hf0, abs_of_nonneg (by linarith : (0:ℚ) ≤ 1 - f),
      abs_of_nonneg hcpv.le]
    rw [div_le_iff₀ hDpos]
    have hfq : f * (1 - f) ≤ 1/4 := by nlinarith [sq_nonneg (2*f - 1)]
    have hstep1 : enthalpyCpv u * |W1 - W2| ≤ enthalpyCpv u * (1/50) :=
      mul_le_mul_of_nonneg_left hdW hcpv.le
    have hstep2 : 0 ≤ enthalpyCpv u * |W1 - W2| :=
      mul_nonneg hcpv.le (abs_nonneg _)
    have hstep3 : f * (1 - f) * (enthalpyCpv u * |W1 - W2|) ≤
        (1/4) * (enthalpyCpv u * (1/50)) :=
      mul_le_mul hfq hstep1 hstep2 (by norm_num)
    nlinarith [mul_nonneg hcpv.le (add_nonneg hfw1 hfw2)]

/-- Witness for C5 amended: mixing (95 degF, W = 0.0142) with
(75 degF, W = 0.0093) at f = 3/10 in IP units satisfies the exact W and
h lever rules and the one-percent dry-bulb lever bound. -/
theorem mixing_lever_rule_amended_witness :
    (mixState .IP 95 (71/5000) 75 (93/10000) (3/10)).2.1 =
      3/10 * (71/5000) + (1 - 3/10) * (93/10000) ∧
    (mixState .IP 95 (71/5000) 75 (93/10000) (3/10)).2.2 =
      3/10 * GetMoistAirEnthalpy .IP 95 (71/5000) +
      (1 - 3/10) * GetMoistAirEnthalpy .IP 75 (93/10000) ∧
    (mixState .IP 95 (71/5000) 75 (93/10000) (3/10)).2.1 - 93/10000 =
      3/10 * (71/5000 - 93/10000) ∧
    (mixState .IP 95 (71/5000) 75 (93/10000) (3/10)).2.2 -
      GetMoistAirEnthalpy .IP 75 (93/10000) =
      3/10 * (GetMoistAirEnthalpy .IP 95 (71/5000) -
        GetMoistAirEnthalpy .IP 75 (93/10000)) ∧
    |((mixState .IP 95 (71/5000) 75 (93/10000) (3/10)).1 - 75) / (95 - 75) - 3/10| ≤
      1/100 := by
  apply mixing_lever_rule_amended .IP 95 (71/5000) 75 (93/10000) (3/10)
  · norm_num
  · norm_num
  · norm_num
  · norm_num
  · norm_num
  · rw [abs_le]
    constructor <;> norm_num

/-- C10 counterexample: resolving with the supported pair given in
reversed order, ("RH", "Tdb") with values (50, 75) — so the caller gave
RH = 50 and Tdb = 75 — echoes the original pair ("RH", "Tdb") but the
swapped values (75, 50), which do not line up element-wise with the
echoed pair. -/
theorem resolve_echo_counterexample :
    resolve_state_point (fun _ _ _ => ()) ("RH", "Tdb") (50, 75) =
      .ok ⟨("RH", "Tdb"), (75, 50), ()⟩ ∧
    ((75 : ℚ), (50 : ℚ)) ≠ ((50 : ℚ), (75 : ℚ)) := by
  constructor
  · rfl
  · decide

/-- C10 amended: for every supported pair given in either ordering,
resolution succeeds and the returned input_pair is the pair exactly as
the caller gave it; the returned input_values, however, are echoed in
the canonical (supported) ordering — they line up element-wise with the
canonical pair, and hence with the echoed input_pair only when the
caller supplied it in canonical order; pairs unsupported in either
ordering fail with the unsupported-pair error.  assoc names the value
the caller assigned to each property. -/
theorem resolve_echo_amended {α : Type} (resolvers : String × String → ℚ → ℚ → α)
    (pair : String × String) (values : ℚ × ℚ) (assoc : String → ℚ)
    (h1 : assoc pair.1 = values.1) (h2 : assoc pair.2 = values.2) :
    (pair ∈ SUPPORTED_INPUT_PAIRS →
      ∃ props, resolve_state_point resolvers pair values =
        .ok ⟨pair, (assoc pair.1, assoc pair.2), props⟩) ∧
    (pair ∉ SUPPORTED_INPUT_PAIRS → (pair.2, pair.1) ∈ SUPPORTED_INPUT_PAIRS →
      ∃ props, resolve_state_point resolvers pair values =
        .ok ⟨pair, (assoc pair.2, assoc pair.1), props⟩) ∧
    (pair ∉ SUPPORTED_INPUT_PAIRS → (pair.2, pair.1) ∉ SUPPORTED_INPUT_PAIRS →
      resolve_state_point resolvers pair values = .error .unsupportedPair) := by
  refine ⟨?_, ?_, ?_⟩
  · intro hmem
    refine ⟨resolvers pair values.1 values.2, ?_⟩
    unfold resolve_state_point
    rw [if_pos hmem, h1, h2]
  · intro hnot hmem
    refine ⟨resolvers (pair.2, pair.1) values.2 values.1, ?_⟩
    unfold resolve_state_point
    rw [if_neg hnot, if_pos hmem, h1, h2]
  · intro hnot hnot2
    unfold resolve_state_point
    rw [if_neg hnot, if_neg hnot2]

/-- Witness for C10 amended: the caller assignment RH = 50, Tdb = 75
given as the reversed pair ("RH", "Tdb") resolves successfully, echoing
the original pair with the values in canonical order (75, 50). -/
theorem resolve_echo_amended_witness :
    ∃ props : Unit,
      resolve_state_point (fun _ _ _ => ()) ("RH", "Tdb") (50, 75) =
        .ok ⟨("RH", "Tdb"), (75, 50), props⟩ := by
  obtain ⟨_, hrev, _⟩ := resolve_echo_amended (fun _ _ _ => ())
    ("RH", "Tdb") (50, 75) (fun s => if s = "RH" then 50 else 75)
    (by decide) (by decide)
  have h := hrev (by decide) (by decide)
  simpa using h

end Psychro
